import Mathlib

/-!
# Country-dashboard aggregation and derivation logic: a shallow embedding

This file embeds the data model and the operations of the country dashboard
(`src/app/lib/countryData.ts` and the derivation core of
`src/app/components/CountryDashboard.tsx`) and proves properties about them.

Modelling conventions for the JavaScript source:
* a string field that may be missing at runtime is modelled as `String`,
  with `""` standing for both the missing and the empty value (both are
  falsy in JS, and the code only ever tests them for truthiness);
* JS `number` is modelled by `Int`;
* `Array.prototype.sort` (required to be stable since ES2019) is modelled
  by the stable `List.insertionSort`, with the relation `r a b` meaning
  "the JS comparator applied to `(a, b)` is non-positive";
* a JS `Map` built by first-wins insertion is modelled by an association
  list extended at the back, queried with `List.lookup`;
* `String.prototype.localeCompare` is modelled by the sign of the
  lexicographic character comparison, adequate for the ASCII strings that
  arise in this data set.
-/

/-- The unified record produced by the aggregator (`CountryRecord` in
`countryData.ts`). -/
structure CountryRecord where
  name : String
  cca2 : String
  cca3 : String
  capital : String
  region : String
  population : Int
  currencies : String
  gdp : Option Int
  deriving DecidableEq

/-- One entry of the country-metadata source (`RestCountry` in
`countryData.ts`): `name.common` is flattened to `nameCommon`; a missing
`cca2`/`cca3` is `""`; the optional `currencies` object keeps only the
currency names, in object order. -/
structure RestCountry where
  nameCommon : String
  cca2 : String
  cca3 : String
  capital : Option (List String)
  region : String
  population : Int
  currencies : Option (List String)
  deriving DecidableEq

/-- One entry of the economic-indicator source (`WorldBankEntry` in
`countryData.ts`): `country.id` (with a missing `country` or `id` modelled
as `""`) and a nullable `value`. -/
structure WorldBankEntry where
  countryId : String
  value : Option Int
  deriving DecidableEq

/-- `buildCurrencyLabel` from `countryData.ts`: `"—"` when the `currencies`
field is absent, otherwise the currency names joined with `", "`.  (A
present-but-empty object is truthy in JS, so it takes the join branch.) -/
def buildCurrencyLabel : Option (List String) → String
  | none => "—"
  | some names => String.intercalate ", " names

/-- The loop body of `pickLatestGdp`: entries with a missing country id or a
null value are skipped (`continue`), and the `Map.has` guard makes the first
value seen per code win; `Map.set` on a fresh key appends at the back. -/
def pickLatestGdpAux (gdpMap : List (String × Int)) :
    List WorldBankEntry → List (String × Int)
  | [] => gdpMap
  | e :: rest =>
    if e.countryId = "" then pickLatestGdpAux gdpMap rest
    else
      match e.value with
      | none => pickLatestGdpAux gdpMap rest
      | some v =>
        if (gdpMap.lookup e.countryId).isSome then pickLatestGdpAux gdpMap rest
        else pickLatestGdpAux (gdpMap ++ [(e.countryId, v)]) rest

/-- `pickLatestGdp` from `countryData.ts`. -/
def pickLatestGdp (entries : List WorldBankEntry) : List (String × Int) :=
  pickLatestGdpAux [] entries

/-- The record constructor inside the `.map` of `getCountries`
(`countryData.ts` lines 70–81): first capital or `"—"`, empty region
defaults to `"Other"`, GDP looked up by the 2-letter code with `null`
fallback. -/
def mkRecord (gdpMap : List (String × Int)) (c : RestCountry) : CountryRecord :=
  { name := c.nameCommon
    cca2 := c.cca2
    cca3 := c.cca3
    capital := (c.capital.bind List.head?).getD "—"
    region := if c.region = "" then "Other" else c.region
    population := c.population
    currencies := buildCurrencyLabel c.currencies
    gdp := gdpMap.lookup c.cca2 }

/-- The order realised by the final `.sort((a, b) => b.population - a.population)`
of `getCountries`: `a` precedes `b` when the comparator is non-positive,
i.e. when `b.population ≤ a.population`. -/
def popDesc (a b : CountryRecord) : Prop := b.population ≤ a.population

instance : DecidableRel popDesc := fun a b => Int.decLe b.population a.population

instance : IsTotal CountryRecord popDesc :=
  ⟨fun a b => Int.le_total b.population a.population⟩

instance : IsTrans CountryRecord popDesc :=
  ⟨fun _ _ _ hab hbc => le_trans hbc hab⟩

/-- The filter–map–sort pipeline at the end of `getCountries`
(`countryData.ts` lines 68–82): drop entries missing either short code,
build records, sort descending by population. -/
def aggregateRecords (restData : List RestCountry)
    (gdpEntries : List WorldBankEntry) : List CountryRecord :=
  List.insertionSort popDesc
    ((restData.filter (fun c => c.cca2 != "" && c.cca3 != "")).map
      (mkRecord (pickLatestGdp gdpEntries)))

/-- The country-metadata HTTP response: success flag and parsed JSON body. -/
structure RestResponse where
  ok : Bool
  body : List RestCountry

/-- The economic-indicator HTTP response: success flag, plus the second
element of the parsed 2-element JSON body; `none` models a second element
that is not an array (the `Array.isArray(gdpJson[1])` test fails and the
code substitutes `[]`). -/
structure GdpResponse where
  ok : Bool
  entries : Option (List WorldBankEntry)

/-- `getCountries` from `countryData.ts`, with the two awaited responses
made explicit: a non-success response throws (metadata checked first),
otherwise the aggregation pipeline runs on the parsed bodies. -/
def getCountries (rest : RestResponse) (gdp : GdpResponse) :
    Except String (List CountryRecord) :=
  if rest.ok = false then .error "Failed to load country metadata."
  else if gdp.ok = false then .error "Failed to load GDP data."
  else .ok (aggregateRecords rest.body (gdp.entries.getD []))

/-- The sortable columns (`SortKey` in `CountryDashboard.tsx`). -/
inductive SortKey
  | name
  | population
  | gdp
  | capital
  | currencies
  deriving DecidableEq

/-- A sort direction (`"asc" | "desc"`). -/
inductive SortDir
  | asc
  | desc
  deriving DecidableEq

/-- The client state of the dashboard relevant to filtering and sorting. -/
structure DashState where
  searchTerm : String
  regionFilter : String
  sortKey : SortKey
  sortDirection : SortDir
  deriving DecidableEq

/-- `prev === "asc" ? "desc" : "asc"` from `handleSort`. -/
def flipDir : SortDir → SortDir
  | .asc => .desc
  | .desc => .asc

/-- `handleSort` from `CountryDashboard.tsx` (lines 89–96): an equal key
flips the direction; a new key is adopted with direction `asc` for
name/capital and `desc` otherwise. -/
def toggleSort (s : DashState) (k : SortKey) : DashState :=
  if s.sortKey = k then { s with sortDirection := flipDir s.sortDirection }
  else
    { s with
      sortKey := k
      sortDirection :=
        if k = SortKey.name ∨ k = SortKey.capital then SortDir.asc else SortDir.desc }

/-- The JS value `record[sortKey]`: a number, a string, or `null` (the
latter only for a missing `gdp`). -/
inductive SortVal
  | num (n : Int)
  | str (s : String)
  | jsnull
  deriving DecidableEq

/-- Field access `record[sortKey]`. -/
def sortVal (k : SortKey) (r : CountryRecord) : SortVal :=
  match k with
  | .name => .str r.name
  | .population => .num r.population
  | .gdp =>
    match r.gdp with
    | some v => .num v
    | none => .jsnull
  | .capital => .str r.capital
  | .currencies => .str r.currencies

/-- JS `String(value)` applied to a sort value (`String(null) = "null"`,
numbers print in decimal). -/
def jsString : SortVal → String
  | .num n => toString n
  | .str s => s
  | .jsnull => "null"

/-- Strict lexicographic order on character lists, used to model the string
comparison primitives. -/
def charListLt : List Char → List Char → Bool
  | [], [] => false
  | [], _ :: _ => true
  | _ :: _, [] => false
  | c :: cs, d :: ds => if c < d then true else if d < c then false else charListLt cs ds

/-- Model of `String.prototype.localeCompare`: the sign of the lexicographic
character comparison (adequate for the ASCII strings of this data set). -/
def strCompare (a b : String) : Int :=
  if charListLt a.data b.data then -1
  else if charListLt b.data a.data then 1
  else 0

/-- The direction multiplier of the comparator in `filteredCountries`. -/
def dirMult : SortDir → Int
  | .asc => 1
  | .desc => -1

/-- The comparator of the `.sort` inside `filteredCountries`
(`CountryDashboard.tsx` lines 76–84): when both values are numbers they are
subtracted, otherwise both are converted with `String(...)` and
locale-compared; the result is multiplied by the direction multiplier. -/
def compareRecords (k : SortKey) (d : SortDir) (a b : CountryRecord) : Int :=
  match sortVal k a, sortVal k b with
  | .num x, .num y => (x - y) * dirMult d
  | va, vb => strCompare (jsString va) (jsString vb) * dirMult d

/-- One step of `new Set(...)` construction: JS sets keep the first
occurrence of each element, in insertion order. -/
def jsSetInsert (acc : List String) (x : String) : List String :=
  if x ∈ acc then acc else acc ++ [x]

/-- `regions` from `CountryDashboard.tsx` (lines 62–65): `"All"` followed by
the deduplicated region values sorted with the default string sort. -/
def computeRegions (records : List CountryRecord) : List String :=
  "All" ::
    List.insertionSort (· ≤ ·)
      ((records.map CountryRecord.region).foldl jsSetInsert [])

/-! ## Concrete fixtures used to instantiate the theorems -/

/-- Metadata entry `Alpha` (both codes present, population 10). -/
def restAlpha : RestCountry := ⟨"Alpha", "AA", "AAA", none, "X", 10, none⟩

/-- Metadata entry `Beta` (both codes present, population 20). -/
def restBeta : RestCountry := ⟨"Beta", "BB", "BBB", none, "X", 20, none⟩

/-- A successful metadata response with two well-formed entries. -/
def restW : RestResponse := ⟨true, [restAlpha, restBeta]⟩

/-- A successful GDP response whose body's second element is an empty array. -/
def gdpW : GdpResponse := ⟨true, some []⟩

/-- Two GDP entries for the same code, most recent first. -/
def gdpUS : List WorldBankEntry := [⟨"US", some 100⟩, ⟨"US", some 90⟩]

/-- A metadata response with two entries sharing `cca3 = "AAA"`. -/
def restDup : RestResponse :=
  ⟨true, [restAlpha, ⟨"Alpha2", "AB", "AAA", none, "X", 5, none⟩]⟩

/-- A record whose `gdp` is null. -/
def recNullGdp : CountryRecord := ⟨"Nulland", "NN", "NNN", "—", "X", 1, "—", none⟩

/-- A record whose `gdp` is 0. -/
def recGdp0 : CountryRecord := ⟨"Zeroland", "ZZ", "ZZZ", "—", "X", 1, "—", some 0⟩

/-- A record whose `gdp` is 5. -/
def recGdp5 : CountryRecord := ⟨"Fiveland", "FF", "FFF", "—", "X", 1, "—", some 5⟩

/-- An accepted metadata entry whose currency object is present but empty. -/
def entryEmptyCurr : RestCountry := ⟨"Gamma", "GG", "GGG", none, "X", 3, some []⟩

/-- An accepted metadata entry with two currency names. -/
def entryCurr : RestCountry := ⟨"Delta", "DD", "DDD", none, "X", 4, some ["Euro", "Lek"]⟩

/-- The dashboard's initial sort state. -/
def dashW : DashState := ⟨"", "All", SortKey.population, SortDir.desc⟩

/-- A record whose `region` is the literal string `"All"`. -/
def recRegionAll : CountryRecord := ⟨"Allland", "QQ", "QQQ", "—", "All", 1, "—", none⟩

/-! ## Helper lemmas -/

theorem lookup_append (l₁ l₂ : List (String × Int)) (c : String) :
    (l₁ ++ l₂).lookup c = (l₁.lookup c).or (l₂.lookup c) := by
  induction l₁ with
  | nil => simp [List.lookup]
  | cons p l ih =>
    obtain ⟨k, v⟩ := p
    by_cases h : c == k <;> simp [List.lookup, h, ih]

theorem pickLatestGdpAux_lookup (c : String) (hc : c ≠ "") :
    ∀ (es : List WorldBankEntry) (m : List (String × Int)),
      (pickLatestGdpAux m es).lookup c
        = (m.lookup c).or
            ((es.find? (fun e => e.countryId == c && e.value.isSome)).bind
              WorldBankEntry.value)
  | [], m => by simp [pickLatestGdpAux]
  | e :: rest, m => by
    simp only [pickLatestGdpAux]
    by_cases hid : e.countryId = ""
    · rw [if_pos hid, List.find?_cons_of_neg _ (by simp [hid, Ne.symm hc]),
        pickLatestGdpAux_lookup c hc rest m]
    · rw [if_neg hid]
      cases hv : e.value with
      | none =>
        rw [List.find?_cons_of_neg _ (by simp [hv]),
          pickLatestGdpAux_lookup c hc rest m]
      | some v =>
        dsimp only
        by_cases hec : e.countryId = c
        · subst hec
          rw [List.find?_cons_of_pos _ (by simp [hv])]
          by_cases hm : (m.lookup e.countryId).isSome = true
          · rw [if_pos hm, pickLatestGdpAux_lookup e.countryId hc rest m]
            obtain ⟨x, hx⟩ := Option.isSome_iff_exists.mp hm
            simp [hx, hv]
          · rw [if_neg hm, pickLatestGdpAux_lookup e.countryId hc rest
              (m ++ [(e.countryId, v)]), lookup_append]
            have hmn : m.lookup e.countryId = none :=
              Option.not_isSome_iff_eq_none.mp hm
            simp [hmn, hv, List.lookup]
        · rw [List.find?_cons_of_neg _ (by simp [hec])]
          by_cases hm : (m.lookup e.countryId).isSome = true
          · rw [if_pos hm, pickLatestGdpAux_lookup c hc rest m]
          · rw [if_neg hm, pickLatestGdpAux_lookup c hc rest
              (m ++ [(e.countryId, v)]), lookup_append]
            have hbne : (c == e.countryId) = false :=
              beq_eq_false_iff_ne.mpr fun h => hec h.symm
            have : ([(e.countryId, v)].lookup c) = none := by
              simp [List.lookup, hbne]
            simp [this]

/-! ## Claim theorems -/

/-- C2: `pickLatestGdp` maps each country code to the value of the first
entry in source order for that code whose value is non-null, ignoring all
later entries with the same code. -/
theorem pickLatestGdp_first_nonnull (entries : List WorldBankEntry)
    (c : String) (hc : c ≠ "") :
    (pickLatestGdp entries).lookup c
      = (entries.find? (fun e => e.countryId == c && e.value.isSome)).bind
          WorldBankEntry.value := by
  have h := pickLatestGdpAux_lookup c hc entries []
  simpa [pickLatestGdp, List.lookup] using h

/-- C2 witness: on `[{country: "US", value: 100}, {country: "US", value: 90}]`
the resulting map sends `"US"` to `100` (first-wins). -/
theorem pickLatestGdp_first_nonnull_witness :
    (pickLatestGdp gdpUS).lookup "US" = some 100 :=
  (pickLatestGdp_first_nonnull gdpUS "US" (by decide)).trans (by rfl)

/-- C1: every record list returned by `getCountries` is sorted descending by
population: each adjacent pair satisfies
`records[i].population ≥ records[i+1].population`. -/
theorem getCountries_sorted_by_population (rest : RestResponse)
    (gdp : GdpResponse) (rs : List CountryRecord)
    (h : getCountries rest gdp = .ok rs) :
    List.Chain' (fun a b => b.population ≤ a.population) rs := by
  by_cases h1 : rest.ok = false
  · simp [getCountries, h1] at h
  · by_cases h2 : gdp.ok = false
    · simp [getCountries, h1, h2] at h
    · simp only [getCountries, if_neg h1, if_neg h2, Except.ok.injEq] at h
      subst h
      exact List.Pairwise.chain' (List.sorted_insertionSort popDesc _)

/-- C1 witness: a concrete successful pair of responses yields a list that is
descending by population. -/
theorem getCountries_sorted_by_population_witness :
    List.Chain' (fun a b => b.population ≤ a.population)
      (aggregateRecords restW.body []) :=
  getCountries_sorted_by_population restW gdpW (aggregateRecords restW.body []) rfl

/-- C3: `getCountries` fails (returning an error and hence no partial record
list) whenever either upstream response has non-success status, and returns
the full aggregated record list when both are successful. -/
theorem getCountries_error_handling (rest : RestResponse) (gdp : GdpResponse) :
    if rest.ok = true ∧ gdp.ok = true
    then getCountries rest gdp
        = .ok (aggregateRecords rest.body (gdp.entries.getD []))
    else ∃ msg, getCountries rest gdp = .error msg := by
  cases hr : rest.ok <;> cases hg : gdp.ok <;> simp [getCountries, hr, hg]

/-- C4 counterexample: two metadata entries sharing `cca3 = "AAA"` both pass
the filter, so `getCountries` returns a record list whose `cca3` values are
not unique. -/
theorem getCountries_cca3_not_unique :
    getCountries restDup gdpW = .ok (aggregateRecords restDup.body [])
      ∧ (aggregateRecords restDup.body []).map CountryRecord.cca3 = ["AAA", "AAA"]
      ∧ ¬ ((aggregateRecords restDup.body []).map CountryRecord.cca3).Nodup :=
  ⟨rfl, by decide, by decide⟩

/-- C4 amended: when the input metadata entries have pairwise-distinct `cca3`
values, the record list returned by `getCountries` has unique `cca3` values
(the aggregation filters, maps `cca3` through unchanged, and permutes). -/
theorem getCountries_cca3_unique (rest : RestResponse) (gdp : GdpResponse)
    (rs : List CountryRecord) (h : getCountries rest gdp = .ok rs)
    (hnd : (rest.body.map RestCountry.cca3).Nodup) :
    (rs.map CountryRecord.cca3).Nodup := by
  by_cases h1 : rest.ok = false
  · simp [getCountries, h1] at h
  · by_cases h2 : gdp.ok = false
    · simp [getCountries, h1, h2] at h
    · simp only [getCountries, if_neg h1, if_neg h2, Except.ok.injEq] at h
      subst h
      have hperm :
          List.Perm
            ((aggregateRecords rest.body (gdp.entries.getD [])).map CountryRecord.cca3)
            (((rest.body.filter fun c => c.cca2 != "" && c.cca3 != "").map
                (mkRecord (pickLatestGdp (gdp.entries.getD [])))).map
                  CountryRecord.cca3) :=
        (List.perm_insertionSort popDesc _).map _
      refine hperm.nodup_iff.mpr ?_
      rw [List.map_map]
      have hcomp :
          CountryRecord.cca3 ∘ mkRecord (pickLatestGdp (gdp.entries.getD []))
            = RestCountry.cca3 := rfl
      rw [hcomp]
      exact hnd.sublist ((List.filter_sublist _).map _)

/-- C4 witness: distinct input `cca3` values yield distinct output `cca3`
values on a concrete input. -/
theorem getCountries_cca3_unique_witness :
    ((aggregateRecords restW.body []).map CountryRecord.cca3).Nodup :=
  getCountries_cca3_unique restW gdpW (aggregateRecords restW.body []) rfl (by decide)

/-- C5 counterexample: when one of the compared records has a null `gdp`,
the comparator string-compares `"null"` against the other value's decimal
string instead of subtracting: both comparisons below yield `1`, which no
single numeric reading `d` of null could produce as the products
`(d - 0) * 1` and `(d - 5) * 1` simultaneously. -/
theorem compareRecords_gdp_not_arithmetic :
    compareRecords SortKey.gdp SortDir.asc recNullGdp recGdp0 = 1
      ∧ compareRecords SortKey.gdp SortDir.asc recNullGdp recGdp5 = 1
      ∧ ¬ ∃ d : Int,
          compareRecords SortKey.gdp SortDir.asc recNullGdp recGdp0 = (d - 0) * 1
            ∧ compareRecords SortKey.gdp SortDir.asc recNullGdp recGdp5
                = (d - 5) * 1 := by
  refine ⟨by decide, by decide, ?_⟩
  rintro ⟨d, h1, h2⟩
  have e1 : compareRecords SortKey.gdp SortDir.asc recNullGdp recGdp0 = 1 := by
    decide
  have e2 : compareRecords SortKey.gdp SortDir.asc recNullGdp recGdp5 = 1 := by
    decide
  rw [e1] at h1
  rw [e2] at h2
  omega

/-- C5 amended: the comparator subtracts for `population` always and for
`gdp` when both values are non-null; when either `gdp` is null it falls back
to the locale comparison of the JS string forms (null stringifies to
`"null"`); the string fields are locale-compared; everything is multiplied
by `+1` for ascending and `-1` for descending. -/
theorem compareRecords_spec (a b : CountryRecord) (d : SortDir) :
    (compareRecords SortKey.population d a b
        = (a.population - b.population) * dirMult d)
    ∧ (∀ x y, a.gdp = some x → b.gdp = some y →
        compareRecords SortKey.gdp d a b = (x - y) * dirMult d)
    ∧ ((a.gdp = none ∨ b.gdp = none) →
        compareRecords SortKey.gdp d a b
          = strCompare (jsString (sortVal SortKey.gdp a))
              (jsString (sortVal SortKey.gdp b)) * dirMult d)
    ∧ (compareRecords SortKey.name d a b
        = strCompare a.name b.name * dirMult d)
    ∧ (compareRecords SortKey.capital d a b
        = strCompare a.capital b.capital * dirMult d)
    ∧ (compareRecords SortKey.currencies d a b
        = strCompare a.currencies b.currencies * dirMult d) := by
  refine ⟨rfl, ?_, ?_, rfl, rfl, rfl⟩
  · intro x y hx hy
    simp [compareRecords, sortVal, hx, hy]
  · intro hn
    cases ha : a.gdp <;> cases hb : b.gdp <;>
      simp_all [compareRecords, sortVal]

/-- C5 witness: two non-null gdp values are subtracted, and a null gdp falls
back to the string comparison, on concrete records. -/
theorem compareRecords_spec_witness :
    compareRecords SortKey.gdp SortDir.asc recGdp5 recGdp0
        = (5 - 0) * dirMult SortDir.asc
      ∧ compareRecords SortKey.gdp SortDir.asc recNullGdp recGdp0
          = strCompare (jsString (sortVal SortKey.gdp recNullGdp))
              (jsString (sortVal SortKey.gdp recGdp0)) * dirMult SortDir.asc :=
  ⟨(compareRecords_spec recGdp5 recGdp0 SortDir.asc).2.1 5 0 rfl rfl,
   (compareRecords_spec recNullGdp recGdp0 SortDir.asc).2.2.1 (Or.inl rfl)⟩

/-- C6 counterexample: an accepted entry whose currency set is present but
empty produces the empty string, not the placeholder `"—"`. -/
theorem currencies_empty_not_placeholder :
    aggregateRecords [entryEmptyCurr] [] = [mkRecord [] entryEmptyCurr]
      ∧ (mkRecord [] entryEmptyCurr).currencies = ""
      ∧ (mkRecord [] entryEmptyCurr).currencies ≠ "—" :=
  ⟨by decide, by decide, by decide⟩

/-- C6 amended: for every metadata entry accepted by the aggregator, the
record's `currencies` is the names joined with `", "` whenever the currency
set is present (an empty set yields `""`), and the placeholder `"—"` exactly
when the set is absent. -/
theorem mkRecord_currencies (g : List (String × Int)) (c : RestCountry)
    (_hacc : c.cca2 ≠ "" ∧ c.cca3 ≠ "") :
    (c.currencies = none → (mkRecord g c).currencies = "—")
    ∧ (∀ names, c.currencies = some names →
        (mkRecord g c).currencies = String.intercalate ", " names)
    ∧ (c.currencies = some [] → (mkRecord g c).currencies = "") := by
  refine ⟨?_, ?_, ?_⟩
  · intro h
    simp [mkRecord, buildCurrencyLabel, h]
  · intro names h
    simp [mkRecord, buildCurrencyLabel, h]
  · intro h
    simp [mkRecord, buildCurrencyLabel, h, String.intercalate]

/-- C6 witness: a present currency set is joined with `", "` on a concrete
accepted entry. -/
theorem mkRecord_currencies_witness :
    (mkRecord [] entryCurr).currencies = String.intercalate ", " ["Euro", "Lek"] :=
  (mkRecord_currencies [] entryCurr ⟨by decide, by decide⟩).2.1 ["Euro", "Lek"] rfl

/-- C7: `handleSort` with the current key flips only the direction (so twice
restores the original state); with a different key it adopts that key,
leaves the other state fields unchanged, and resets the direction to
ascending for name/capital and descending for population/gdp/currencies. -/
theorem toggleSort_spec (s : DashState) (k : SortKey) :
    (k = s.sortKey →
      toggleSort s k = { s with sortDirection := flipDir s.sortDirection }
        ∧ toggleSort (toggleSort s k) k = s)
    ∧ (k ≠ s.sortKey →
      (toggleSort s k).sortKey = k
        ∧ (toggleSort s k).searchTerm = s.searchTerm
        ∧ (toggleSort s k).regionFilter = s.regionFilter
        ∧ ((k = SortKey.name ∨ k = SortKey.capital) →
            (toggleSort s k).sortDirection = SortDir.asc)
        ∧ ((k = SortKey.population ∨ k = SortKey.gdp ∨ k = SortKey.currencies) →
            (toggleSort s k).sortDirection = SortDir.desc)) := by
  obtain ⟨t, rg, sk, sd⟩ := s
  constructor
  · intro hk
    subst hk
    cases sd <;> simp [toggleSort, flipDir]
  · intro hk
    have hsk : ¬ (sk = k) := fun h => hk h.symm
    refine ⟨?_, ?_, ?_, ?_, ?_⟩
    · simp [toggleSort, hsk]
    · simp [toggleSort, hsk]
    · simp [toggleSort, hsk]
    · rintro (rfl | rfl) <;> simp [toggleSort, hsk]
    · rintro (rfl | rfl | rfl) <;> simp [toggleSort, hsk]

/-- C7 witness: toggling the current key `population` flips the direction
and toggling twice restores the initial state. -/
theorem toggleSort_spec_witness :
    toggleSort dashW SortKey.population
        = { dashW with sortDirection := flipDir dashW.sortDirection }
      ∧ toggleSort (toggleSort dashW SortKey.population) SortKey.population
          = dashW :=
  (toggleSort_spec dashW SortKey.population).1 rfl

theorem jsSetFold_mem (x : String) :
    ∀ (l : List String) (acc : List String),
      x ∈ l.foldl jsSetInsert acc ↔ x ∈ acc ∨ x ∈ l
  | [], acc => by simp
  | r :: rest, acc => by
    rw [List.foldl_cons, jsSetFold_mem x rest]
    unfold jsSetInsert
    by_cases h : r ∈ acc
    · rw [if_pos h]
      constructor
      · rintro (hx | hx)
        · exact Or.inl hx
        · exact Or.inr (List.mem_cons_of_mem r hx)
      · rintro (hx | hx)
        · exact Or.inl hx
        · rcases List.mem_cons.mp hx with rfl | hx
          · exact Or.inl h
          · exact Or.inr hx
    · rw [if_neg h]
      simp [List.mem_append, List.mem_cons, or_assoc]

theorem jsSetFold_nodup :
    ∀ (l : List String) (acc : List String),
      acc.Nodup → (l.foldl jsSetInsert acc).Nodup
  | [], _, h => h
  | r :: rest, acc, h => by
    rw [List.foldl_cons]
    apply jsSetFold_nodup rest
    unfold jsSetInsert
    by_cases hr : r ∈ acc
    · rwa [if_pos hr]
    · rw [if_neg hr]
      simpa [List.nodup_append] using ⟨h, hr⟩

/-- C8 counterexample: a record whose `region` is the literal `"All"` makes
`computeRegions` return `["All", "All"]`, which contains a duplicate. -/
theorem computeRegions_dup_on_region_All :
    computeRegions [recRegionAll] = ["All", "All"]
      ∧ ¬ (computeRegions [recRegionAll]).Nodup :=
  ⟨by decide, by decide⟩

/-- C8 amended: `computeRegions` returns `"All"` first, followed by the
distinct region values present in the records sorted lexicographically; the
whole output contains no duplicates provided no record's region is the
literal string `"All"`. -/
theorem computeRegions_spec (records : List CountryRecord) :
    (computeRegions records).head? = some "All"
    ∧ List.Sorted (· ≤ ·) (computeRegions records).tail
    ∧ (computeRegions records).tail.Nodup
    ∧ (∀ x, x ∈ (computeRegions records).tail
        ↔ x ∈ records.map CountryRecord.region)
    ∧ ("All" ∉ records.map CountryRecord.region →
        (computeRegions records).Nodup) := by
  have htail :
      (computeRegions records).tail
        = List.insertionSort (· ≤ ·)
            ((records.map CountryRecord.region).foldl jsSetInsert []) := rfl
  have hnd : (computeRegions records).tail.Nodup := by
    rw [htail]
    exact ((List.perm_insertionSort _ _).nodup_iff).mpr
      (jsSetFold_nodup _ [] List.nodup_nil)
  have hmem : ∀ x, x ∈ (computeRegions records).tail
      ↔ x ∈ records.map CountryRecord.region := by
    intro x
    rw [htail, List.mem_insertionSort, jsSetFold_mem]
    simp
  refine ⟨rfl, ?_, hnd, hmem, ?_⟩
  · rw [htail]
    exact List.sorted_insertionSort _ _
  · intro hall
    have hcons : computeRegions records = "All" :: (computeRegions records).tail :=
      rfl
    rw [hcons, List.nodup_cons]
    exact ⟨fun hmem2 => hall ((hmem "All").mp hmem2), hnd⟩

/-- C8 witness: on a record set without a literal `"All"` region the whole
output is duplicate-free. -/
theorem computeRegions_spec_witness :
    (computeRegions [recGdp0]).Nodup :=
  (computeRegions_spec [recGdp0]).2.2.2.2 (by decide)

/-- C9: every record returned by `getCountries` originates from a metadata
entry with both short codes present; entries missing `cca2` or `cca3` never
reach the output. -/
theorem getCountries_rejects_missing_codes (rest : RestResponse)
    (gdp : GdpResponse) (rs : List CountryRecord) (r : CountryRecord)
    (h : getCountries rest gdp = .ok rs) (hr : r ∈ rs) :
    ∃ c ∈ rest.body, c.cca2 ≠ "" ∧ c.cca3 ≠ ""
      ∧ r = mkRecord (pickLatestGdp (gdp.entries.getD [])) c := by
  by_cases h1 : rest.ok = false
  · simp [getCountries, h1] at h
  · by_cases h2 : gdp.ok = false
    · simp [getCountries, h1, h2] at h
    · simp only [getCountries, if_neg h1, if_neg h2, Except.ok.injEq] at h
      subst h
      rw [aggregateRecords, List.mem_insertionSort, List.mem_map] at hr
      obtain ⟨c, hc, hrc⟩ := hr
      rw [List.mem_filter] at hc
      obtain ⟨hcb, hcf⟩ := hc
      simp only [Bool.and_eq_true, bne_iff_ne] at hcf
      exact ⟨c, hcb, hcf.1, hcf.2, hrc.symm⟩

/-- C9 witness: on a concrete input, a record of the output is traced back to
an entry with both codes present. -/
theorem getCountries_rejects_missing_codes_witness :
    ∃ c ∈ restW.body, c.cca2 ≠ "" ∧ c.cca3 ≠ ""
      ∧ mkRecord [] restBeta = mkRecord (pickLatestGdp (gdpW.entries.getD [])) c :=
  getCountries_rejects_missing_codes restW gdpW (aggregateRecords restW.body [])
    (mkRecord [] restBeta) rfl (by decide)

/-- C10: when both responses are successful but the GDP body's second element
is not an array, `getCountries` still succeeds with the full record list, and
every returned record has a null `gdp`. -/
theorem getCountries_nonarray_gdp (rest : RestResponse) (gdp : GdpResponse)
    (h1 : rest.ok = true) (h2 : gdp.ok = true) (h3 : gdp.entries = none) :
    getCountries rest gdp = .ok (aggregateRecords rest.body [])
      ∧ ∀ r ∈ aggregateRecords rest.body [], r.gdp = none := by
  constructor
  · simp [getCountries, h1, h2, h3]
  · intro r hr
    rw [aggregateRecords, List.mem_insertionSort, List.mem_map] at hr
    obtain ⟨c, _, hrc⟩ := hr
    rw [← hrc]
    rfl

/-- C10 witness: a successful metadata response paired with a GDP response
whose second element is not an array still yields the aggregated list. -/
theorem getCountries_nonarray_gdp_witness :
    getCountries restW ⟨true, none⟩ = .ok (aggregateRecords restW.body []) :=
  (getCountries_nonarray_gdp restW ⟨true, none⟩ rfl rfl rfl).1
